import Mathlib

/-!
Verification development for the godwoken state-authentication core.

Part 1: the Merkle-backed state engine (`StateImpl` in
`crates/chain/src/state_impl/state_impl.rs`).  The sparse Merkle tree
itself lives in the external `sparse_merkle_tree` crate, so the tree is
modelled from the spec as a key/value map with all-zero default whose
root is a deterministic function of the final per-key content.  32-byte
`H256` keys and values are modelled as natural numbers.

Part 2 (further below): the secp256k1 lock algorithms
(`crates/generator/src/account_lock_manage/secp256k1.rs`), with the
external cryptographic primitives (keccak, blake2b, secp256k1 recovery,
molecule script hashing) abstracted as an oracle structure, and the RLP
encoding of the `rlp` crate embedded concretely.
-/

namespace Godwoken

/-- Association-list store backing a spec-modelled sparse Merkle tree:
entries are (key, value) pairs with no duplicate keys. -/
abbrev Store := List (Nat × Nat)

/-- Modelled from the spec: `SMT::update` — single-key update of the
key/value map (the new binding replaces any previous binding of the key). -/
def storeSet (l : Store) (k v : Nat) : Store :=
  (k, v) :: l.filter (fun p => ¬ (p.1 == k))

/-- Modelled from the spec: `SMT::get` — sparse lookup; a key with no
binding has the all-zero (here: `0`) value. -/
def storeGet (l : Store) (k : Nat) : Nat :=
  ((l.find? (fun p => p.1 == k)).map Prod.snd).getD 0

/-- Keys of a store are pairwise distinct. -/
def keysNodup (l : Store) : Prop := (l.map Prod.fst).Nodup

/-- The final content of a store: its nonzero (key, value) bindings as a
finite set (order-irrelevant by construction). -/
def contentOf (l : Store) : Finset (Nat × Nat) :=
  (l.filter (fun p => ¬ (p.2 == 0))).toFinset

/-- Modelled from the spec: the Merkle root is a deterministic function
of all final (key, value) pairs; the concrete hash algorithm of the
`sparse_merkle_tree` crate is replaced by an order-independent injective
encoding of the content set. -/
def rootHash (s : Finset (Nat × Nat)) : Nat :=
  s.sum (fun p => 2 ^ (Nat.pair p.1 p.2))

/-- Errors of the state engine, modelled from the spec's error taxonomy:
storage failure, missing key (generic not-found), empty proof request,
and proof-inconsistency (claimed leaf value disagrees with the tree). -/
inductive StateError where
  | store : StateError
  | missingKey : StateError
  | emptyKeys : StateError
  | inconsistentProof : StateError
deriving DecidableEq, Repr

/-- Embeds `StateImpl<S>` of `state_impl.rs`: account tree, account
counter, block tree, block counter, and the two code-store side maps
(script-hash to script and data-hash to code, values opaque). -/
structure StateImpl where
  tree : Store
  account_count : Nat
  block_tree : Store
  block_count : Nat
  scripts : Store
  codes : Store
deriving DecidableEq, Repr

/-- Embeds `impl Default for StateImpl`: zero roots, empty stores. -/
def StateImpl.default : StateImpl :=
  ⟨[], 0, [], 0, [], []⟩

/-- Embeds `State::get_raw` for `StateImpl`: a tree lookup; the abstract
backing store of the model never fails, so the result is always `ok`. -/
def StateImpl.get_raw (s : StateImpl) (k : Nat) : Except StateError Nat :=
  .ok (storeGet s.tree k)

/-- Embeds `State::update_raw` for `StateImpl`: a single-key tree update
(the `Result` of the source can only fail in the backing store, which
the model makes infallible, so the new state is returned directly). -/
def StateImpl.update_raw (s : StateImpl) (k v : Nat) : StateImpl :=
  { s with tree := storeSet s.tree k v }

/-- Embeds `State::calculate_root` for `StateImpl`: the current root of
the account tree. -/
def StateImpl.calculate_root (s : StateImpl) : Except StateError Nat :=
  .ok (rootHash (contentOf s.tree))

/-- Applies a sequence of `update_raw` writes, first element first. -/
def applyUpdates (ops : List (Nat × Nat)) (s : StateImpl) : StateImpl :=
  ops.foldl (fun t p => t.update_raw p.1 p.2) s

theorem find?_eq_some_of_mem (l : Store) (k v : Nat)
    (hnd : keysNodup l) (hm : (k, v) ∈ l) :
    l.find? (fun p => p.1 == k) = some (k, v) := by
  induction l with
  | nil => cases hm
  | cons a t ih =>
    rcases List.mem_cons.mp hm with h | h
    · subst h
      simp [List.find?]
    · have hnd2 : keysNodup t := by
        have := (List.nodup_cons.mp hnd).2
        exact this
      have hne : a.1 ≠ k := by
        intro hq
        have hk : k ∈ t.map Prod.fst := List.mem_map_of_mem Prod.fst h
        have := (List.nodup_cons.mp hnd).1
        rw [hq] at this
        exact this hk
      rw [List.find?_cons_of_neg _ (by simp [hne])]
      exact ih hnd2 h

theorem storeGet_of_mem (l : Store) (k v : Nat)
    (hnd : keysNodup l) (hm : (k, v) ∈ l) : storeGet l k = v := by
  rw [storeGet, find?_eq_some_of_mem l k v hnd hm]
  rfl

theorem mem_of_storeGet (l : Store) (k v : Nat)
    (hg : storeGet l k = v) (hv : v ≠ 0) : (k, v) ∈ l := by
  rw [storeGet] at hg
  cases hf : l.find? (fun p => p.1 == k) with
  | none =>
    rw [hf] at hg
    simp at hg
    exact absurd hg.symm hv
  | some p =>
    rw [hf] at hg
    simp at hg
    have hp1 := List.find?_some hf
    have hmem : p ∈ l := List.mem_of_find?_eq_some hf
    have hk : p.1 = k := by simpa using hp1
    have : p = (k, v) := by
      cases p with
      | mk a b => simp_all
    rw [this] at hmem
    exact hmem

theorem mem_contentOf (l : Store) (k v : Nat) :
    (k, v) ∈ contentOf l ↔ ((k, v) ∈ l ∧ v ≠ 0) := by
  simp [contentOf, List.mem_filter]

theorem mem_contentOf_iff_get (l : Store) (k v : Nat) (hnd : keysNodup l) :
    (k, v) ∈ contentOf l ↔ (storeGet l k = v ∧ v ≠ 0) := by
  rw [mem_contentOf]
  constructor
  · rintro ⟨hm, hv⟩
    exact ⟨storeGet_of_mem l k v hnd hm, hv⟩
  · rintro ⟨hg, hv⟩
    exact ⟨mem_of_storeGet l k v hg hv, hv⟩

theorem contentOf_ext (l₁ l₂ : Store)
    (h₁ : keysNodup l₁) (h₂ : keysNodup l₂)
    (h : ∀ k, storeGet l₁ k = storeGet l₂ k) :
    contentOf l₁ = contentOf l₂ := by
  apply Finset.ext
  intro p
  cases p with
  | mk k v =>
    rw [mem_contentOf_iff_get l₁ k v h₁, mem_contentOf_iff_get l₂ k v h₂, h k]

theorem keysNodup_storeSet (l : Store) (k v : Nat) (h : keysNodup l) :
    keysNodup (storeSet l k v) := by
  rw [keysNodup, storeSet]
  simp only [List.map_cons, List.nodup_cons]
  constructor
  · intro hk
    rcases List.mem_map.mp hk with ⟨p, hp, hp1⟩
    have := (List.mem_filter.mp hp).2
    simp [hp1] at this
  · exact h.sublist ((List.filter_sublist l).map Prod.fst)

theorem keysNodup_applyUpdates (ops : List (Nat × Nat)) (s : StateImpl)
    (h : keysNodup s.tree) : keysNodup (applyUpdates ops s).tree := by
  induction ops generalizing s with
  | nil => exact h
  | cons p t ih =>
    exact ih (s.update_raw p.1 p.2) (keysNodup_storeSet s.tree p.1 p.2 h)

theorem find?_filter_ne (l : Store) (k k₁ : Nat) (h : k ≠ k₁) :
    (l.filter (fun p => ¬ (p.1 == k₁))).find? (fun p => p.1 == k)
      = l.find? (fun p => p.1 == k) := by
  induction l with
  | nil => rfl
  | cons a t ih =>
    by_cases ha : a.1 = k₁
    · rw [List.filter_cons_of_neg (by simp [ha]),
        List.find?_cons_of_neg _ (by simp [ha, Ne.symm h])]
      exact ih
    · rw [List.filter_cons_of_pos (by simp [ha])]
      by_cases hk : a.1 = k
      · rw [List.find?_cons_of_pos _ (by simp [hk]),
          List.find?_cons_of_pos _ (by simp [hk])]
      · rw [List.find?_cons_of_neg _ (by simp [hk]),
          List.find?_cons_of_neg _ (by simp [hk])]
        exact ih

theorem find?_storeSet_ne (l : Store) (k k₁ v : Nat) (h : k ≠ k₁) :
    (storeSet l k₁ v).find? (fun p => p.1 == k) = l.find? (fun p => p.1 == k) := by
  rw [storeSet, List.find?_cons_of_neg _ (by simp [Ne.symm h])]
  exact find?_filter_ne l k k₁ h

theorem storeGet_storeSet_ne (l : Store) (k k₁ v : Nat) (h : k ≠ k₁) :
    storeGet (storeSet l k₁ v) k = storeGet l k := by
  rw [storeGet, storeGet, find?_storeSet_ne l k k₁ v h]

theorem storeGet_storeSet_self (l : Store) (k v : Nat) :
    storeGet (storeSet l k v) k = v := by
  rw [storeGet, storeSet, List.find?_cons_of_pos _ (by simp)]
  rfl

theorem storeGet_applyUpdates_not_written (ops : List (Nat × Nat))
    (s : StateImpl) (k : Nat) (h : k ∉ ops.map Prod.fst) :
    storeGet (applyUpdates ops s).tree k = storeGet s.tree k := by
  induction ops generalizing s with
  | nil => rfl
  | cons p t ih =>
    have hk1 : k ≠ p.1 := by
      intro hq
      exact h (by simp [hq])
    have ht : k ∉ t.map Prod.fst := fun hq => h (by simp [hq])
    calc storeGet (applyUpdates t (s.update_raw p.1 p.2)).tree k
        = storeGet (s.update_raw p.1 p.2).tree k := ih _ ht
      _ = storeGet s.tree k := storeGet_storeSet_ne s.tree k p.1 p.2 hk1

/-- C1: if two update sequences applied to the same initial account tree
leave the same final value at every key, the resulting roots are equal:
the root is a function only of the final per-key content. -/
theorem root_determined_by_content (s : StateImpl)
    (ops₁ ops₂ : List (Nat × Nat)) (hnd : keysNodup s.tree)
    (hsame : ∀ k, (applyUpdates ops₁ s).get_raw k = (applyUpdates ops₂ s).get_raw k) :
    (applyUpdates ops₁ s).calculate_root = (applyUpdates ops₂ s).calculate_root := by
  have h₁ := keysNodup_applyUpdates ops₁ s hnd
  have h₂ := keysNodup_applyUpdates ops₂ s hnd
  have hg : ∀ k, storeGet (applyUpdates ops₁ s).tree k
      = storeGet (applyUpdates ops₂ s).tree k := by
    intro k
    have := hsame k
    rw [StateImpl.get_raw, StateImpl.get_raw] at this
    exact Except.ok.inj this
  rw [StateImpl.calculate_root, StateImpl.calculate_root,
    contentOf_ext _ _ h₁ h₂ hg]

/-- Witness for C1 at a concrete state and two reordered, overwriting
update sequences. -/
theorem root_determined_by_content_witness :
    (applyUpdates [(1, 5), (2, 7), (1, 9)] StateImpl.default).calculate_root
      = (applyUpdates [(2, 7), (1, 9), (2, 7)] StateImpl.default).calculate_root := by
  apply root_determined_by_content StateImpl.default
    [(1, 5), (2, 7), (1, 9)] [(2, 7), (1, 9), (2, 7)]
  · exact List.nodup_nil
  · intro k
    rw [StateImpl.get_raw, StateImpl.get_raw]
    by_cases h1 : k = 1
    · subst h1
      rfl
    · by_cases h2 : k = 2
      · subst h2
        rfl
      · have e1 : storeGet (applyUpdates [(1, 5), (2, 7), (1, 9)] StateImpl.default).tree k
            = storeGet StateImpl.default.tree k :=
          storeGet_applyUpdates_not_written _ _ k (by simp [h1, h2])
        have e2 : storeGet (applyUpdates [(2, 7), (1, 9), (2, 7)] StateImpl.default).tree k
            = storeGet StateImpl.default.tree k :=
          storeGet_applyUpdates_not_written _ _ k (by simp [h1, h2])
        rw [e1, e2]

/-- C8: a key never passed to `update_raw` on a tree instance reads back
as `ok` of the all-zero value: absence is a value, not an error. -/
theorem get_raw_never_written (ops : List (Nat × Nat)) (k : Nat)
    (h : k ∉ ops.map Prod.fst) :
    (applyUpdates ops StateImpl.default).get_raw k = .ok 0 := by
  rw [StateImpl.get_raw, storeGet_applyUpdates_not_written ops StateImpl.default k h]
  rfl

/-- Witness for C8 at a concrete update sequence and unwritten key. -/
theorem get_raw_never_written_witness :
    (applyUpdates [(1, 5), (2, 7)] StateImpl.default).get_raw 3 = .ok 0 :=
  get_raw_never_written [(1, 5), (2, 7)] 3 (by decide)

/-- Modelled from the spec: the opaque compiled-proof byte buffer
produced for a consistent leaf set (an arbitrary deterministic encoding
stands in for the compiled proof of the `sparse_merkle_tree` crate). -/
def proofBytes (s : StateImpl) (leaves : List (Nat × Nat)) : List Nat :=
  rootHash (contentOf s.tree) :: leaves.map (fun p => Nat.pair p.1 p.2)

/-- Embeds `StateImpl::merkle_proof`; the proof compilation of the
external `sparse_merkle_tree` crate is modelled from the spec: an empty
leaf set is refused, and a proof request whose claimed value disagrees
with the value the tree actually holds fails with the
proof-inconsistency error. -/
def StateImpl.merkle_proof (s : StateImpl) (leaves : List (Nat × Nat)) :
    Except StateError (List Nat) :=
  if leaves.isEmpty then .error .emptyKeys
  else if leaves.all (fun p => storeGet s.tree p.1 == p.2) then .ok (proofBytes s leaves)
  else .error .inconsistentProof

/-- C7: a non-empty proof request containing a leaf whose claimed value
differs from the tree's actual value fails with the proof-inconsistency
error, which is distinct from the generic not-found error. -/
theorem merkle_proof_inconsistent (s : StateImpl) (leaves : List (Nat × Nat))
    (hne : leaves ≠ []) (hbad : ∃ p ∈ leaves, storeGet s.tree p.1 ≠ p.2) :
    s.merkle_proof leaves = .error .inconsistentProof
      ∧ StateError.inconsistentProof ≠ StateError.missingKey := by
  refine ⟨?_, by decide⟩
  rw [StateImpl.merkle_proof]
  rcases hbad with ⟨p, hp, hv⟩
  have hempty : leaves.isEmpty = false := by
    cases leaves with
    | nil => exact absurd rfl hne
    | cons a t => rfl
  have hall : leaves.all (fun p => storeGet s.tree p.1 == p.2) = false := by
    rw [List.all_eq_false]
    exact ⟨p, hp, by simp [hv]⟩
  rw [hempty, hall]
  rfl

/-- Witness for C7 at a concrete tree and mismatched leaf value. -/
theorem merkle_proof_inconsistent_witness :
    (StateImpl.default.update_raw 1 5).merkle_proof [(1, 6)]
      = .error .inconsistentProof := by
  have h := merkle_proof_inconsistent (StateImpl.default.update_raw 1 5) [(1, 6)]
    (by decide) ⟨(1, 6), by decide, by decide⟩
  exact h.1

/-- Embeds `RawL2Block` as far as `push_block` consumes it: the block
number (`raw.number().unpack()`). -/
structure RawL2Block where
  number : Nat
deriving DecidableEq, Repr

/-- Embeds `L2Block`: a wrapper around its raw block. -/
structure L2Block where
  raw : RawL2Block
deriving DecidableEq, Repr

/-- Modelled from the spec: `RawL2Block::compute_smt_key`, a
deterministic block-tree key derived from the block number alone (the
molecule byte packing of the external `gw_types` crate is elided). -/
def computeSmtKey (number : Nat) : Nat := number

/-- Embeds `StateImpl::push_block`: writes the block hash into the block
tree at the key derived from the block number; the block hashing of the
external `gw_types` crate is abstracted as the `rawHash` parameter. -/
def StateImpl.push_block (rawHash : RawL2Block → Nat) (s : StateImpl)
    (block : L2Block) : StateImpl :=
  { s with block_tree := storeSet s.block_tree (computeSmtKey block.raw.number) (rawHash block.raw) }

/-- C10: `push_block` writes exactly one block-tree entry, at the key
derived from the block number, holding the block hash; the account tree
(hence `calculate_root` and every `get_raw` result), `account_count`,
`block_count`, `scripts` and `codes` are unchanged. -/
theorem push_block_frame (rawHash : RawL2Block → Nat) (s : StateImpl)
    (block : L2Block) (k : Nat) (hk : k ≠ computeSmtKey block.raw.number) :
    storeGet (StateImpl.push_block rawHash s block).block_tree
        (computeSmtKey block.raw.number) = rawHash block.raw
      ∧ storeGet (StateImpl.push_block rawHash s block).block_tree k
        = storeGet s.block_tree k
      ∧ (StateImpl.push_block rawHash s block).tree = s.tree
      ∧ (StateImpl.push_block rawHash s block).get_raw k = s.get_raw k
      ∧ (StateImpl.push_block rawHash s block).calculate_root = s.calculate_root
      ∧ (StateImpl.push_block rawHash s block).account_count = s.account_count
      ∧ (StateImpl.push_block rawHash s block).block_count = s.block_count
      ∧ (StateImpl.push_block rawHash s block).scripts = s.scripts
      ∧ (StateImpl.push_block rawHash s block).codes = s.codes := by
  refine ⟨storeGet_storeSet_self _ _ _,
    storeGet_storeSet_ne _ _ _ _ hk, rfl, rfl, rfl, rfl, rfl, rfl, rfl⟩

/-- Witness for C10 at a concrete state, block and other key. -/
theorem push_block_frame_witness :
    storeGet ((StateImpl.default.update_raw 1 5).push_block (fun r => r.number + 100)
        ⟨⟨4⟩⟩).block_tree (computeSmtKey 4) = 104
      ∧ ((StateImpl.default.update_raw 1 5).push_block (fun r => r.number + 100)
        ⟨⟨4⟩⟩).calculate_root = (StateImpl.default.update_raw 1 5).calculate_root := by
  have h := push_block_frame (fun r => r.number + 100)
    (StateImpl.default.update_raw 1 5) ⟨⟨4⟩⟩ 9 (by decide)
  exact ⟨h.1, h.2.2.2.2.1⟩

/-- Embeds `OverlayState` as constructed by `StateImpl::new_overlay`;
the overlay internals live in `state_impl/overlay.rs`, which is modelled
from the spec: a snapshot of the parent (root, account tree entries,
account count, scripts, codes) plus a private write buffer; reads check
the buffer first and fall through to the snapshot; writes go only into
the buffer. -/
structure OverlayState where
  root : Nat
  parentEntries : Store
  buffer : Store
  account_count : Nat
  scripts : Store
  codes : Store
deriving DecidableEq, Repr

/-- Modelled from the spec: an overlay read checks the write buffer
first, then falls through to the wrapped snapshot. -/
def OverlayState.get_raw (o : OverlayState) (k : Nat) : Nat :=
  match o.buffer.find? (fun p => p.1 == k) with
  | some p => p.2
  | none => storeGet o.parentEntries k

/-- Modelled from the spec: an overlay write goes only into the private
write buffer. -/
def OverlayState.update_raw (o : OverlayState) (k v : Nat) : OverlayState :=
  { o with buffer := storeSet o.buffer k v }

/-- Embeds `StateImpl::new_overlay`: the overlay wraps the parent's
current root, store, account count and cloned script/code maps, with an
empty write buffer; `&self` is not mutated. -/
def StateImpl.new_overlay (s : StateImpl) : Except StateError OverlayState :=
  .ok ⟨rootHash (contentOf s.tree), s.tree, [], s.account_count, s.scripts, s.codes⟩

/-- The overlay value produced by `new_overlay`. -/
def overlayOf (s : StateImpl) : OverlayState :=
  ⟨rootHash (contentOf s.tree), s.tree, [], s.account_count, s.scripts, s.codes⟩

/-- Applies a sequence of overlay writes, first element first. -/
def applyOverlayWrites (ws : List (Nat × Nat)) (o : OverlayState) : OverlayState :=
  ws.foldl (fun t p => t.update_raw p.1 p.2) o

/-- The last value written for a key in a write sequence, if any. -/
def lastWrite (ws : List (Nat × Nat)) (k : Nat) : Option Nat :=
  (ws.reverse.find? (fun p => p.1 == k)).map Prod.snd

theorem overlayGet_update (o : OverlayState) (k k₁ v : Nat) :
    (o.update_raw k₁ v).get_raw k = if k = k₁ then v else o.get_raw k := by
  by_cases h : k = k₁
  · subst h
    rw [if_pos rfl, OverlayState.get_raw, OverlayState.update_raw]
    simp only [storeSet]
    rw [List.find?_cons_of_pos _ (by simp)]
  · rw [if_neg h, OverlayState.get_raw, OverlayState.get_raw,
      OverlayState.update_raw]
    simp only
    rw [find?_storeSet_ne o.buffer k k₁ v h]

theorem lastWrite_cons (p : Nat × Nat) (ws : List (Nat × Nat)) (k : Nat) :
    lastWrite (p :: ws) k
      = (lastWrite ws k).or (if k = p.1 then some p.2 else none) := by
  rw [lastWrite, lastWrite, List.reverse_cons, List.find?_append]
  cases hf : ws.reverse.find? (fun q => q.1 == k) with
  | some q => rfl
  | none =>
    by_cases h : k = p.1
    · rw [if_pos h]
      simp [List.find?, h.symm]
    · rw [if_neg h]
      simp only [Option.or, Option.map]
      rw [List.find?_cons_of_neg _ (by simp [Ne.symm h])]
      rfl

/-- Reads through an overlay after a write sequence see the last write
for the key if one exists, and the underlying overlay otherwise. -/
theorem overlayGet_applyWrites (ws : List (Nat × Nat)) (o : OverlayState) (k : Nat) :
    (applyOverlayWrites ws o).get_raw k = (lastWrite ws k).getD (o.get_raw k) := by
  induction ws generalizing o with
  | nil => rfl
  | cons p t ih =>
    have step : applyOverlayWrites (p :: t) o
        = applyOverlayWrites t (o.update_raw p.1 p.2) := rfl
    rw [step, ih (o.update_raw p.1 p.2), overlayGet_update, lastWrite_cons]
    cases lastWrite t k with
    | some v => rfl
    | none =>
      by_cases h : k = p.1
      · rw [if_pos h, if_pos h]
        rfl
      · rw [if_neg h, if_neg h]
        rfl

theorem applyWrites_parent_fixed (ws : List (Nat × Nat)) (o : OverlayState) :
    (applyOverlayWrites ws o).parentEntries = o.parentEntries
      ∧ (applyOverlayWrites ws o).root = o.root
      ∧ (applyOverlayWrites ws o).account_count = o.account_count
      ∧ (applyOverlayWrites ws o).scripts = o.scripts
      ∧ (applyOverlayWrites ws o).codes = o.codes := by
  induction ws generalizing o with
  | nil => exact ⟨rfl, rfl, rfl, rfl, rfl⟩
  | cons p t ih => exact ih (o.update_raw p.1 p.2)

/-- C6: `new_overlay` succeeds with an overlay snapshotting the parent
state without mutating it; overlay writes touch only the private buffer,
so the parent's account tree entries — hence every parent `get_raw`
result — are unchanged by any overlay write sequence; and an overlay
read after a write sequence is fully determined by that overlay's own
writes and the shared parent snapshot, so writes against one overlay are
never visible through the parent's `get_raw` nor through a sibling
overlay built from the same state. -/
theorem overlay_isolation (s : StateImpl) (ws ws₂ : List (Nat × Nat)) (k : Nat) :
    s.new_overlay = .ok (overlayOf s)
      ∧ (overlayOf s).parentEntries = s.tree
      ∧ (overlayOf s).account_count = s.account_count
      ∧ (overlayOf s).scripts = s.scripts
      ∧ (overlayOf s).codes = s.codes
      ∧ (applyOverlayWrites ws (overlayOf s)).parentEntries = s.tree
      ∧ s.get_raw k = .ok (storeGet s.tree k)
      ∧ (applyOverlayWrites ws₂ (overlayOf s)).get_raw k
        = (lastWrite ws₂ k).getD (storeGet s.tree k) := by
  refine ⟨rfl, rfl, rfl, rfl, rfl, (applyWrites_parent_fixed ws (overlayOf s)).1, rfl, ?_⟩
  rw [overlayGet_applyWrites ws₂ (overlayOf s) k]
  rfl

/-! Part 2: the secp256k1 lock algorithms of
`crates/generator/src/account_lock_manage/secp256k1.rs`.  Byte buffers
are lists of naturals; the external cryptographic primitives are
abstracted as the `Ext` oracle structure below; RLP encoding (the `rlp`
crate) is embedded concretely. -/

/-- Embeds `Script` as far as the lock algorithms consume it: its
`args` bytes (code hash and hash type are carried for completeness). -/
structure Script where
  code_hash : List Nat
  hash_type : Nat
  args : List Nat

/-- Embeds `RawL2Transaction` as far as `try_assemble_polyjuice_args`
consumes it: nonce, destination account id and argument bytes. -/
structure RawL2Transaction where
  nonce : Nat
  to_id : Nat
  args : List Nat

/-- Embeds `L2Transaction`: raw transaction plus detached 65-byte
signature. -/
structure L2Transaction where
  raw : RawL2Transaction
  signature : List Nat

/-- Embeds `RollupConfig` as far as `verify_tx` consumes it. -/
structure RollupConfig where
  compatible_chain_id : Nat

/-- Embeds `RollupContext` of `crates/generator/src/types.rs`. -/
structure RollupContext where
  rollup_script_hash : List Nat
  rollup_config : RollupConfig

/-- Embeds `LockAlgorithmError` as far as `secp256k1.rs` produces it. -/
inductive LockAlgorithmError where
  | invalidLockArgs : LockAlgorithmError
  | invalidSignature : LockAlgorithmError
deriving DecidableEq, Repr

/-- Oracle for the external cryptographic and serialization primitives:
keccak and blake2b digests (32-byte outputs), secp256k1 compact-encoding
validity and public-key recovery, the two public-key serializations,
molecule script hashing, and `RawL2Transaction::calc_message`.  Public
keys are opaque naturals. -/
structure Ext where
  keccak : List Nat → List Nat
  keccak_len : ∀ x, (keccak x).length = 32
  blake2b : List Nat → List Nat
  blake2b_len : ∀ x, (blake2b x).length = 32
  compactOk : List Nat → Bool
  recover : List Nat → List Nat → Nat → Option Nat
  serCompressed : Nat → List Nat
  serUncompressed : Nat → List Nat
  scriptHash : Script → List Nat
  scriptHash_len : ∀ s, (scriptHash s).length = 32
  calcMessage : List Nat → List Nat → List Nat → RawL2Transaction → List Nat
  calcMessage_len : ∀ a b c t, (calcMessage a b c t).length = 32

/-- Byte-slice `l[i..j]`. -/
def slice (l : List Nat) (i j : Nat) : List Nat := (l.drop i).take (j - i)

/-- Little-endian byte decoding (`uN::from_le_bytes`). -/
def leU (l : List Nat) : Nat := l.foldr (fun b acc => b + 256 * acc) 0

/-- Little-endian encoding of a `u32` (`u32::to_le_bytes`). -/
def leBytes4 (n : Nat) : List Nat :=
  [n % 256, n / 256 % 256, n / 2 ^ 16 % 256, n / 2 ^ 24 % 256]

/-- Big-endian minimal byte encoding, fuelled for structural recursion. -/
def natBEAux : Nat → Nat → List Nat
  | 0, _ => []
  | _ + 1, 0 => []
  | fuel + 1, n + 1 => natBEAux fuel ((n + 1) / 256) ++ [(n + 1) % 256]

/-- Big-endian minimal byte encoding of a natural (`0` encodes to the
empty string, as the `rlp` crate trims leading zero bytes). -/
def natBE (n : Nat) : List Nat := natBEAux n n

/-- Embeds the `rlp` crate's `encode_value`: a single byte below `0x80`
stands for itself, otherwise a string header precedes the bytes. -/
def rlpEncodeBytes (b : List Nat) : List Nat :=
  match b with
  | [x] =>
    if x < 0x80 then [x] else [0x81, x]
  | _ =>
    if b.length ≤ 55 then (0x80 + b.length) :: b
    else (0xb7 + (natBE b.length).length) :: (natBE b.length ++ b)

/-- Embeds the `rlp` crate's unsigned-integer `append`: RLP string of
the big-endian minimal byte encoding. -/
def rlpNat (n : Nat) : List Nat := rlpEncodeBytes (natBE n)

/-- Embeds `finalize_unbounded_list`: wraps the concatenated item
encodings in a list header. -/
def rlpList (items : List (List Nat)) : List Nat :=
  let payload := items.flatten
  if payload.length ≤ 55 then (0xc0 + payload.length) :: payload
  else (0xf7 + (natBE payload.length).length) :: (natBE payload.length ++ payload)

/-- The 7-byte polyjuice magic `\xFF\xFF\xFFPOLY`. -/
def MAGIC : List Nat := [0xFF, 0xFF, 0xFF, 0x50, 0x4F, 0x4C, 0x59]

/-- The Ethereum personal-message tag `\x19Ethereum Signed Message:\n32`
as bytes. -/
def ETH_PERSONAL_TAG : List Nat :=
  [0x19, 69, 116, 104, 101, 114, 101, 117, 109, 32, 83, 105, 103, 110,
   101, 100, 32, 77, 101, 115, 115, 97, 103, 101, 58, 10, 51, 50]

/-- The Tron personal-message tag `\x19TRON Signed Message:\n32` as
bytes. -/
def TRON_PERSONAL_TAG : List Nat :=
  [0x19, 84, 82, 79, 78, 32, 83, 105, 103, 110, 101, 100, 32, 77, 101,
   115, 115, 97, 103, 101, 58, 10, 51, 50]

/-- Embeds `Secp256k1Tron`'s recovery-id mapping: the raw 65th signature
byte `28` maps to recovery id 1, every other byte to 0. -/
def tronRecParam (b : Nat) : Nat := if b = 28 then 1 else 0

/-- Embeds the blake2b public-key hash of `Secp256k1`: blake2b of the
compressed serialization, first 20 bytes. -/
def pubkeyHashBlake (E : Ext) (pk : Nat) : List Nat :=
  (E.blake2b (E.serCompressed pk)).take 20

/-- Embeds the keccak public-key hash of `Secp256k1Eth`/`Secp256k1Tron`:
keccak of the uncompressed serialization without its first byte, bytes
12 through 31. -/
def pubkeyHashKeccak (E : Ext) (pk : Nat) : List Nat :=
  (E.keccak ((E.serUncompressed pk).drop 1)).drop 12

/-- Embeds `Secp256k1::verify_withdrawal_signature`: 52-byte lock args
carry the expected identity hash in bytes 32..52; the 65-byte signature
splits into a 64-byte compact signature and a recovery-id byte
(`RecoveryId::from_i32` accepts 0..=3); a recovered key is hashed with
blake2b and compared. -/
def secp256k1VerifyWithdrawalSig (E : Ext) (lock_args sig message : List Nat) :
    Except LockAlgorithmError Bool :=
  if lock_args.length ≠ 52 then .error .invalidLockArgs
  else if ¬ (sig.getD 64 0 ≤ 3) then .error .invalidSignature
  else if ¬ E.compactOk (sig.take 64) then .error .invalidSignature
  else if message.length ≠ 32 then .error .invalidSignature
  else
    match E.recover message (sig.take 64) (sig.getD 64 0) with
    | none => .error .invalidSignature
    | some pk =>
      if pubkeyHashBlake E pk ≠ slice lock_args 32 52 then .ok false else .ok true

/-- Embeds `Secp256k1Eth::verify_alone`: as the raw scheme but the
recovered key is hashed with keccak over the uncompressed serialization. -/
def secp256k1EthVerifyAlone (E : Ext) (lock_args sig message : List Nat) :
    Except LockAlgorithmError Bool :=
  if lock_args.length ≠ 52 then .error .invalidLockArgs
  else if ¬ (sig.getD 64 0 ≤ 3) then .error .invalidSignature
  else if ¬ E.compactOk (sig.take 64) then .error .invalidSignature
  else if message.length ≠ 32 then .error .invalidSignature
  else
    match E.recover message (sig.take 64) (sig.getD 64 0) with
    | none => .error .invalidSignature
    | some pk =>
      if pubkeyHashKeccak E pk ≠ slice lock_args 32 52 then .ok false else .ok true

/-- Embeds `Secp256k1Eth::verify_withdrawal_signature`: the message is
wrapped with the Ethereum personal-message tag and keccak-hashed before
`verify_alone`. -/
def secp256k1EthVerifyWithdrawalSig (E : Ext) (lock_args sig message : List Nat) :
    Except LockAlgorithmError Bool :=
  secp256k1EthVerifyAlone E lock_args sig (E.keccak (ETH_PERSONAL_TAG ++ message))

/-- Embeds the body of `Secp256k1Tron::verify_withdrawal_signature`
after the personal-message hashing: recovery-id from `tronRecParam`
(always 0 or 1, so `RecoveryId::from_i32` cannot fail), keccak
public-key hash comparison. -/
def secp256k1TronVerifyCore (E : Ext) (lock_args sig signing_message : List Nat) :
    Except LockAlgorithmError Bool :=
  if ¬ E.compactOk (sig.take 64) then .error .invalidSignature
  else if signing_message.length ≠ 32 then .error .invalidSignature
  else
    match E.recover signing_message (sig.take 64) (tronRecParam (sig.getD 64 0)) with
    | none => .error .invalidSignature
    | some pk =>
      if pubkeyHashKeccak E pk ≠ slice lock_args 32 52 then .ok false else .ok true

/-- Embeds `Secp256k1Tron::verify_withdrawal_signature`: 52-byte lock
args, then the message is wrapped with the Tron personal-message tag and
keccak-hashed before recovery. -/
def secp256k1TronVerifyWithdrawalSig (E : Ext) (lock_args sig message : List Nat) :
    Except LockAlgorithmError Bool :=
  if lock_args.length ≠ 52 then .error .invalidLockArgs
  else secp256k1TronVerifyCore E lock_args sig (E.keccak (TRON_PERSONAL_TAG ++ message))

/-- Embeds `try_assemble_polyjuice_args`: sniffs the 7-byte magic,
decodes gas price, gas limit, value and payload length from fixed
little-endian offsets of the transaction args, derives the destination
and polyjuice chain id (creation flag byte 3: empty destination, the
destination account id doubles as chain id; otherwise the first 16 bytes
of the receiver script hash concatenated with the little-endian
destination account id, with the chain id read from receiver script args
bytes 32..36), checks the declared payload length against the remaining
buffer, and RLP-encodes the nine-field list.  The tail of the source
function after the destination/chain-id branch is factored out as
`polyjuiceFinish`; the branch's early `return None` becomes the `none`
branches of `tryAssemblePolyjuiceArgs`. -/
def polyjuiceFinish (rollup_chain_id : Nat) (raw_tx : RawL2Transaction)
    (dest : List Nat) (polyjuice_chain_id : Nat) : Option (List Nat) :=
  if raw_tx.args.length ≠ 52 + leU (slice raw_tx.args 48 52) then none
  else
    some (rlpList [rlpNat raw_tx.nonce, rlpNat (leU (slice raw_tx.args 16 32)),
      rlpNat (leU (slice raw_tx.args 8 16)), rlpEncodeBytes dest,
      rlpNat (leU (slice raw_tx.args 32 48)),
      rlpEncodeBytes (slice raw_tx.args 52 (52 + leU (slice raw_tx.args 48 52))),
      rlpNat ((rollup_chain_id <<< 32) ||| polyjuice_chain_id),
      rlpNat 0, rlpNat 0])

def tryAssemblePolyjuiceArgs (E : Ext) (rollup_chain_id : Nat)
    (raw_tx : RawL2Transaction) (receiver_script : Script) : Option (List Nat) :=
  if raw_tx.args.length < 52 then none
  else if slice raw_tx.args 0 7 ≠ MAGIC then none
  else if raw_tx.args.getD 7 0 = 3 then
    polyjuiceFinish rollup_chain_id raw_tx [] raw_tx.to_id
  else if receiver_script.args.length < 36 then none
  else
    polyjuiceFinish rollup_chain_id raw_tx
      (slice (E.scriptHash receiver_script) 0 16 ++ leBytes4 raw_tx.to_id)
      (leU (slice receiver_script.args 32 36))

/-- Embeds `Secp256k1Eth::verify_tx`: polyjuice-style args are
reassembled and keccak-hashed into the signing message for
`verify_alone`; otherwise the godwoken signing message is verified
through the personal-sign withdrawal path. -/
def secp256k1EthVerifyTx (E : Ext) (ctx : RollupContext)
    (sender_script receiver_script : Script) (tx : L2Transaction) :
    Except LockAlgorithmError Bool :=
  match tryAssemblePolyjuiceArgs E ctx.rollup_config.compatible_chain_id
      tx.raw receiver_script with
  | some rlp_data =>
    secp256k1EthVerifyAlone E sender_script.args tx.signature (E.keccak rlp_data)
  | none =>
    secp256k1EthVerifyWithdrawalSig E sender_script.args tx.signature
      (E.calcMessage ctx.rollup_script_hash (E.scriptHash sender_script)
        (E.scriptHash receiver_script) tx.raw)

/-- Pads a byte list with zero bytes up to the given length. -/
def padTo (n : Nat) (l : List Nat) : List Nat := l ++ List.replicate (n - l.length) 0

/-- A concrete instantiation of the external-primitive oracle, used to
evaluate the embedded functions on concrete inputs. -/
def extOracle : Ext where
  keccak := fun x => padTo 32 (x.take 32)
  keccak_len := by
    intro x
    simp [padTo]
  blake2b := fun x => padTo 32 (x.take 32)
  blake2b_len := by
    intro x
    simp [padTo]
  compactOk := fun _ => true
  recover := fun m _ _ => some (leU m)
  serCompressed := fun pk => padTo 33 (natBE pk)
  serUncompressed := fun pk => 4 :: (List.replicate 12 0 ++ padTo 20 (natBE pk))
  scriptHash := fun s => padTo 32 (s.args.take 32)
  scriptHash_len := by
    intro s
    simp [padTo]
  calcMessage := fun _ _ _ _ => List.replicate 32 0
  calcMessage_len := by
    intro a b c t
    simp

/-- A variant of the concrete oracle whose key recovery always fails. -/
def extOracleNone : Ext :=
  { extOracle with recover := fun _ _ _ => none }

/-- C4: for every scheme, lock args of length 51 yield the
invalid-lock-args error, never an `ok` verification result. -/
theorem lock_args_length_51_rejected (E : Ext) (la sig msg : List Nat)
    (h : la.length = 51) :
    secp256k1VerifyWithdrawalSig E la sig msg = .error .invalidLockArgs
      ∧ secp256k1EthVerifyWithdrawalSig E la sig msg = .error .invalidLockArgs
      ∧ secp256k1TronVerifyWithdrawalSig E la sig msg = .error .invalidLockArgs := by
  refine ⟨?_, ?_, ?_⟩
  · rw [secp256k1VerifyWithdrawalSig, if_pos (by omega)]
  · rw [secp256k1EthVerifyWithdrawalSig, secp256k1EthVerifyAlone, if_pos (by omega)]
  · rw [secp256k1TronVerifyWithdrawalSig, if_pos (by omega)]

/-- Witness for C4 at a concrete 51-byte lock-args buffer. -/
theorem lock_args_length_51_rejected_witness :
    secp256k1VerifyWithdrawalSig extOracle (List.replicate 51 0)
      (List.replicate 65 0) (List.replicate 32 0) = .error .invalidLockArgs := by
  have h := lock_args_length_51_rejected extOracle (List.replicate 51 0)
    (List.replicate 65 0) (List.replicate 32 0) (by simp)
  exact h.1

/-- C3: for every scheme and 52-byte lock args, a structurally valid
signature (valid recovery id, valid compact encoding, recoverable key)
whose recovered key hashes to something other than lock args bytes
32..52 yields `ok false` — a non-error verification-negative result —
while a structurally invalid signature yields the invalid-signature
error, never `ok`. -/
theorem wrong_identity_vs_malformed (E : Ext) (la sig msg : List Nat) (pk : Nat)
    (hla : la.length = 52) (hsig : sig.length = 65) (hmsg : msg.length = 32) :
    (sig.getD 64 0 ≤ 3 → E.compactOk (sig.take 64) = true →
        E.recover msg (sig.take 64) (sig.getD 64 0) = some pk →
        pubkeyHashBlake E pk ≠ slice la 32 52 →
        secp256k1VerifyWithdrawalSig E la sig msg = .ok false)
      ∧ (¬ sig.getD 64 0 ≤ 3 ∨ E.compactOk (sig.take 64) = false ∨
          E.recover msg (sig.take 64) (sig.getD 64 0) = none →
        secp256k1VerifyWithdrawalSig E la sig msg = .error .invalidSignature)
      ∧ (sig.getD 64 0 ≤ 3 → E.compactOk (sig.take 64) = true →
          E.recover (E.keccak (ETH_PERSONAL_TAG ++ msg)) (sig.take 64)
            (sig.getD 64 0) = some pk →
          pubkeyHashKeccak E pk ≠ slice la 32 52 →
        secp256k1EthVerifyWithdrawalSig E la sig msg = .ok false)
      ∧ (¬ sig.getD 64 0 ≤ 3 ∨ E.compactOk (sig.take 64) = false ∨
          E.recover (E.keccak (ETH_PERSONAL_TAG ++ msg)) (sig.take 64)
            (sig.getD 64 0) = none →
        secp256k1EthVerifyWithdrawalSig E la sig msg = .error .invalidSignature)
      ∧ (E.compactOk (sig.take 64) = true →
          E.recover (E.keccak (TRON_PERSONAL_TAG ++ msg)) (sig.take 64)
            (tronRecParam (sig.getD 64 0)) = some pk →
          pubkeyHashKeccak E pk ≠ slice la 32 52 →
        secp256k1TronVerifyWithdrawalSig E la sig msg = .ok false)
      ∧ (E.compactOk (sig.take 64) = false ∨
          E.recover (E.keccak (TRON_PERSONAL_TAG ++ msg)) (sig.take 64)
            (tronRecParam (sig.getD 64 0)) = none →
        secp256k1TronVerifyWithdrawalSig E la sig msg = .error .invalidSignature) := by
  refine ⟨?_, ?_, ?_, ?_, ?_, ?_⟩
  · intro h1 h2 h3 h4
    rw [secp256k1VerifyWithdrawalSig, if_neg (by omega), if_neg (not_not_intro h1),
      if_neg (by simp [h2]), if_neg (by omega), h3]
    simp only [if_pos h4]
  · intro h
    rw [secp256k1VerifyWithdrawalSig, if_neg (by omega)]
    by_cases h1 : sig.getD 64 0 ≤ 3
    · rw [if_neg (not_not_intro h1)]
      cases h2 : E.compactOk (sig.take 64) with
      | false => rw [if_pos (by simp [h2])]
      | true =>
        rw [if_neg (by simp [h2]), if_neg (by omega)]
        rcases h with h | h | h
        · exact absurd h1 h
        · rw [h2] at h
          cases h
        · rw [h]
    · rw [if_pos h1]
  · intro h1 h2 h3 h4
    rw [secp256k1EthVerifyWithdrawalSig, secp256k1EthVerifyAlone, if_neg (by omega),
      if_neg (not_not_intro h1), if_neg (by simp [h2]),
      if_neg (by simp [E.keccak_len]), h3]
    simp only [if_pos h4]
  · intro h
    rw [secp256k1EthVerifyWithdrawalSig, secp256k1EthVerifyAlone, if_neg (by omega)]
    by_cases h1 : sig.getD 64 0 ≤ 3
    · rw [if_neg (not_not_intro h1)]
      cases h2 : E.compactOk (sig.take 64) with
      | false => rw [if_pos (by simp [h2])]
      | true =>
        rw [if_neg (by simp [h2]), if_neg (by simp [E.keccak_len])]
        rcases h with h | h | h
        · exact absurd h1 h
        · rw [h2] at h
          cases h
        · rw [h]
    · rw [if_pos h1]
  · intro h2 h3 h4
    rw [secp256k1TronVerifyWithdrawalSig, if_neg (by omega), secp256k1TronVerifyCore,
      if_neg (by simp [h2]), if_neg (by simp [E.keccak_len]), h3]
    simp only [if_pos h4]
  · intro h
    rw [secp256k1TronVerifyWithdrawalSig, if_neg (by omega), secp256k1TronVerifyCore]
    cases h2 : E.compactOk (sig.take 64) with
    | false => rw [if_pos (by simp [h2])]
    | true =>
      rw [if_neg (by simp [h2]), if_neg (by simp [E.keccak_len])]
      rcases h with h | h
      · rw [h2] at h
        cases h
      · rw [h]

/-- Witness for C3 with a concrete oracle whose recovery fails: the raw
and Tron schemes both report the invalid-signature error. -/
theorem wrong_identity_vs_malformed_witness :
    secp256k1VerifyWithdrawalSig extOracleNone (List.replicate 52 0)
        (List.replicate 65 0) (List.replicate 32 0) = .error .invalidSignature
      ∧ secp256k1TronVerifyWithdrawalSig extOracleNone (List.replicate 52 0)
        (List.replicate 65 0) (List.replicate 32 0) = .error .invalidSignature := by
  have h := wrong_identity_vs_malformed extOracleNone (List.replicate 52 0)
    (List.replicate 65 0) (List.replicate 32 0) 0 (by simp) (by simp) (by simp)
  exact ⟨h.2.1 (Or.inr (Or.inr rfl)), h.2.2.2.2.2 (Or.inr rfl)⟩

/-- C9: the Tron scheme maps raw recovery byte 28 to recovery id 1 and
every other byte to 0, and hashes the message under the fixed Tron
personal-message tag, which differs from the Ethereum one, before
recovery. -/
theorem tron_recid_mapping_and_tag (E : Ext) (la sig msg : List Nat) (b : Nat)
    (hb : b ≠ 28) (hla : la.length = 52) :
    tronRecParam 28 = 1 ∧ tronRecParam b = 0
      ∧ secp256k1TronVerifyWithdrawalSig E la sig msg
        = secp256k1TronVerifyCore E la sig (E.keccak (TRON_PERSONAL_TAG ++ msg))
      ∧ TRON_PERSONAL_TAG ≠ ETH_PERSONAL_TAG := by
  refine ⟨rfl, by simp [tronRecParam, hb], ?_, by decide⟩
  rw [secp256k1TronVerifyWithdrawalSig, if_neg (by omega)]

/-- Witness for C9 at a concrete recovery byte and lock args. -/
theorem tron_recid_mapping_and_tag_witness :
    tronRecParam 28 = 1 ∧ tronRecParam 27 = 0 := by
  have h := tron_recid_mapping_and_tag extOracle (List.replicate 52 0)
    (List.replicate 65 0) (List.replicate 32 0) 27 (by decide) (by simp)
  exact ⟨h.1, h.2.1⟩

/-- The RLP-encoded nine-field call structure exactly as the claim under
scrutiny words it: nonce, gas price, gas limit, destination (empty for
the creation flag byte, else receiver-hash prefix plus little-endian
account id), value, payload, chain id always combining the rollup id
with the per-destination chain id read from receiver script args bytes
32..36, and two trailing zero fields. -/
def claimedPolyjuiceRlp (E : Ext) (rollup_chain_id : Nat)
    (raw_tx : RawL2Transaction) (receiver : Script) : List Nat :=
  rlpList [rlpNat raw_tx.nonce, rlpNat (leU (slice raw_tx.args 16 32)),
    rlpNat (leU (slice raw_tx.args 8 16)),
    rlpEncodeBytes (if raw_tx.args.getD 7 0 = 3 then []
      else slice (E.scriptHash receiver) 0 16 ++ leBytes4 raw_tx.to_id),
    rlpNat (leU (slice raw_tx.args 32 48)),
    rlpEncodeBytes (slice raw_tx.args 52 (52 + leU (slice raw_tx.args 48 52))),
    rlpNat ((rollup_chain_id <<< 32) ||| leU (slice receiver.args 32 36)),
    rlpNat 0, rlpNat 0]

/-- The RLP-encoded nine-field call structure as the amended claim words
it: as `claimedPolyjuiceRlp`, except that the per-destination chain id
is the destination account id when the flag byte marks contract creation
and is read from receiver script args bytes 32..36 otherwise. -/
def polyjuiceSigningRlp (E : Ext) (rollup_chain_id : Nat)
    (raw_tx : RawL2Transaction) (receiver : Script) : List Nat :=
  rlpList [rlpNat raw_tx.nonce, rlpNat (leU (slice raw_tx.args 16 32)),
    rlpNat (leU (slice raw_tx.args 8 16)),
    rlpEncodeBytes (if raw_tx.args.getD 7 0 = 3 then []
      else slice (E.scriptHash receiver) 0 16 ++ leBytes4 raw_tx.to_id),
    rlpNat (leU (slice raw_tx.args 32 48)),
    rlpEncodeBytes (slice raw_tx.args 52 (52 + leU (slice raw_tx.args 48 52))),
    rlpNat ((rollup_chain_id <<< 32) |||
      (if raw_tx.args.getD 7 0 = 3 then raw_tx.to_id
        else leU (slice receiver.args 32 36))),
    rlpNat 0, rlpNat 0]

/-- A concrete contract-creation polyjuice transaction: magic prefix,
flag byte 3, all numeric fields zero, destination account id 5, empty
payload. -/
def cexCreateRaw : RawL2Transaction :=
  ⟨0, 5, MAGIC ++ [3] ++ List.replicate 44 0⟩

/-- A concrete receiver script whose args declare polyjuice chain id 7
at bytes 32..36. -/
def cexReceiver : Script := ⟨[], 0, List.replicate 32 0 ++ [7, 0, 0, 0]⟩

/-- A concrete rollup context with numeric chain id 0. -/
def cexCtx : RollupContext := ⟨List.replicate 32 0, ⟨0⟩⟩

/-- The signing-message bytes actually assembled for `cexCreateRaw`. -/
def cexRlpTrue : List Nat :=
  (tryAssemblePolyjuiceArgs extOracle 0 cexCreateRaw cexReceiver).getD []

/-- The public-key hash the concrete oracle recovers from the actual
signing message of `cexCreateRaw`. -/
def cexPkh : List Nat := pubkeyHashKeccak extOracle (leU (extOracle.keccak cexRlpTrue))

/-- A concrete sender script whose lock args expect exactly `cexPkh`. -/
def cexSender : Script := ⟨[], 0, List.replicate 32 0 ++ cexPkh⟩

/-- A concrete all-zero 65-byte signature. -/
def cexSig : List Nat := List.replicate 65 0

/-- The concrete creation transaction wrapped with its signature. -/
def cexTx : L2Transaction := ⟨cexCreateRaw, cexSig⟩

/-- Counterexample for C2: a contract-creation transaction that passes
the magic-prefix and length checks, whose receiver script args declare
chain id 7 while the destination account id is 5.  Under the concrete
oracle, `verify_tx` accepts against the actually assembled message
(which uses the account id as chain id), while verification against the
keccak hash of the RLP list the claim describes (chain id read from the
receiver script args) rejects — so the claim's message is not the one
used. -/
theorem polyjuice_chain_id_cex :
    slice cexCreateRaw.args 0 7 = MAGIC
      ∧ cexCreateRaw.args.length = 52 + leU (slice cexCreateRaw.args 48 52)
      ∧ secp256k1EthVerifyTx extOracle cexCtx cexSender cexReceiver cexTx = .ok true
      ∧ secp256k1EthVerifyAlone extOracle cexSender.args cexTx.signature
          (extOracle.keccak (claimedPolyjuiceRlp extOracle 0 cexCreateRaw cexReceiver))
        = .ok false := by
  refine ⟨by decide, by decide, rfl, rfl⟩

/-- C2 (amended): for every transaction whose args begin with the magic
prefix and pass the length checks, `verify_tx` verifies through
`verify_alone` with signing message the keccak hash of exactly the
RLP list of `polyjuiceSigningRlp` (chain id from the destination account
id for creation, from receiver script args otherwise). -/
theorem polyjuice_signing_message (E : Ext) (ctx : RollupContext)
    (sender receiver : Script) (tx : L2Transaction)
    (h52 : 52 ≤ tx.raw.args.length)
    (hmag : slice tx.raw.args 0 7 = MAGIC)
    (hdest : tx.raw.args.getD 7 0 = 3 ∨ 36 ≤ receiver.args.length)
    (hlen : tx.raw.args.length = 52 + leU (slice tx.raw.args 48 52)) :
    tryAssemblePolyjuiceArgs E ctx.rollup_config.compatible_chain_id tx.raw receiver
        = some (polyjuiceSigningRlp E ctx.rollup_config.compatible_chain_id
          tx.raw receiver)
      ∧ secp256k1EthVerifyTx E ctx sender receiver tx
        = secp256k1EthVerifyAlone E sender.args tx.signature
            (E.keccak (polyjuiceSigningRlp E ctx.rollup_config.compatible_chain_id
              tx.raw receiver)) := by
  have hassem : tryAssemblePolyjuiceArgs E ctx.rollup_config.compatible_chain_id
      tx.raw receiver
      = some (polyjuiceSigningRlp E ctx.rollup_config.compatible_chain_id
        tx.raw receiver) := by
    rw [tryAssemblePolyjuiceArgs, if_neg (by omega), if_neg (not_not_intro hmag)]
    by_cases hc : tx.raw.args.getD 7 0 = 3
    · rw [if_pos hc, polyjuiceFinish, if_neg (not_not_intro hlen),
        polyjuiceSigningRlp, if_pos hc, if_pos hc]
    · rcases hdest with h3 | h36
      · exact absurd h3 hc
      · rw [if_neg hc, if_neg (by omega), polyjuiceFinish,
          if_neg (not_not_intro hlen), polyjuiceSigningRlp, if_neg hc, if_neg hc]
  refine ⟨hassem, ?_⟩
  rw [secp256k1EthVerifyTx, hassem]

/-- Witness for C2 (amended) at the concrete creation transaction. -/
theorem polyjuice_signing_message_witness :
    tryAssemblePolyjuiceArgs extOracle 0 cexCreateRaw cexReceiver
      = some (polyjuiceSigningRlp extOracle 0 cexCreateRaw cexReceiver) := by
  have h := polyjuice_signing_message extOracle cexCtx cexSender cexReceiver cexTx
    (by decide) (by decide) (Or.inl (by decide)) (by decide)
  exact h.1

/-- A concrete polyjuice-prefixed transaction whose total args length
(53) differs from 52 plus the declared payload length (0). -/
def cexLenRaw : RawL2Transaction :=
  ⟨0, 5, MAGIC ++ [0] ++ List.replicate 44 0 ++ [9]⟩

/-- The concrete mismatched-length transaction with its signature. -/
def cexLenTx : L2Transaction := ⟨cexLenRaw, cexSig⟩

/-- A concrete sender script whose expected identity hash (twenty `1`
bytes) matches no recovered key of the concrete oracle. -/
def cexLenSender : Script := ⟨[], 0, List.replicate 32 0 ++ List.replicate 20 1⟩

/-- Counterexample for C5: a magic-prefixed transaction whose args
length disagrees with the declared payload length is not rejected with a
malformed-input error — under the concrete oracle it produces the
verification-failed outcome `ok false` through the fallback
(non-polyjuice) verification path. -/
theorem polyjuice_len_mismatch_cex :
    slice cexLenRaw.args 0 7 = MAGIC
      ∧ cexLenRaw.args.length ≠ 52 + leU (slice cexLenRaw.args 48 52)
      ∧ secp256k1EthVerifyTx extOracle cexCtx cexLenSender cexReceiver cexLenTx
        = .ok false := by
  refine ⟨by decide, by decide, rfl⟩

/-- C5 (amended): a magic-prefixed transaction whose total args length
differs from 52 plus the declared payload length is not treated as
polyjuice at all: `try_assemble_polyjuice_args` yields nothing and
`verify_tx` silently falls back to the godwoken-message personal-sign
verification path, raising no malformed-input error. -/
theorem polyjuice_len_mismatch_fallback (E : Ext) (ctx : RollupContext)
    (sender receiver : Script) (tx : L2Transaction)
    (hmag : slice tx.raw.args 0 7 = MAGIC)
    (hlen : tx.raw.args.length ≠ 52 + leU (slice tx.raw.args 48 52)) :
    tryAssemblePolyjuiceArgs E ctx.rollup_config.compatible_chain_id tx.raw receiver
        = none
      ∧ secp256k1EthVerifyTx E ctx sender receiver tx
        = secp256k1EthVerifyWithdrawalSig E sender.args tx.signature
            (E.calcMessage ctx.rollup_script_hash (E.scriptHash sender)
              (E.scriptHash receiver) tx.raw) := by
  have hnone : tryAssemblePolyjuiceArgs E ctx.rollup_config.compatible_chain_id
      tx.raw receiver = none := by
    rw [tryAssemblePolyjuiceArgs]
    by_cases h52 : tx.raw.args.length < 52
    · rw [if_pos h52]
    · rw [if_neg h52, if_neg (not_not_intro hmag)]
      by_cases hc : tx.raw.args.getD 7 0 = 3
      · rw [if_pos hc, polyjuiceFinish, if_pos hlen]
      · rw [if_neg hc]
        by_cases h36 : receiver.args.length < 36
        · rw [if_pos h36]
        · rw [if_neg h36, polyjuiceFinish, if_pos hlen]
  refine ⟨hnone, ?_⟩
  rw [secp256k1EthVerifyTx, hnone]

/-- Witness for C5 (amended) at the concrete mismatched-length
transaction. -/
theorem polyjuice_len_mismatch_fallback_witness :
    tryAssemblePolyjuiceArgs extOracle 0 cexLenRaw cexReceiver = none := by
  have h := polyjuice_len_mismatch_fallback extOracle cexCtx cexLenSender
    cexReceiver cexLenTx (by decide) (by decide)
  exact h.1

end Godwoken
